import Mathlib

/-!
Verification of the WhatsApp sentiment-analysis script `src/feeling.py`.

The script is a linear Streamlit program: decode the uploaded bytes with an
encoding-detection fallback chain, parse the transcript lines with three
regular expressions tried in priority order (non-matching lines are merged
into the previous message), filter out system notices and very short
messages, run a sentiment classifier per message with a neutral default on
failure, and compute three aggregate projections (overall distribution,
daily trend, author ranking).

Strings are modelled as `List Char`.  The Python `re` patterns used by the
script only combine single-character classes with bounded/unbounded
greedy or lazy repetition, capture groups and the `$` anchor, so the regex
engine below implements exactly that fragment with the Python backtracking
semantics (candidate repetition counts tried longest-first for greedy,
shortest-first for lazy, with full backtracking).
-/

namespace Feeling

/-! ## Character classes and Python string helpers -/

/-- The Python whitespace set, as used by `str.strip` and the `\s` class
(`re` in Unicode mode).  ASCII whitespace, the C1 separators, NEL, NBSP and
the Unicode space separators. -/
def isPySpace (c : Char) : Bool :=
  c = ' ' || c = '\t' || c = '\n' || c.toNat = 0x0b || c.toNat = 0x0c || c = '\r' ||
  (0x1c ≤ c.toNat && c.toNat ≤ 0x1f) || c.toNat = 0x85 || c.toNat = 0xa0 ||
  c.toNat = 0x1680 || (0x2000 ≤ c.toNat && c.toNat ≤ 0x200a) ||
  c.toNat = 0x2028 || c.toNat = 0x2029 || c.toNat = 0x202f ||
  c.toNat = 0x205f || c.toNat = 0x3000

/-- The `\d` class.  Modelled as the ASCII digits (Python additionally
accepts other Unicode decimal digits; the transcripts at hand are ASCII
in the date/time positions). -/
def isDigitCh (c : Char) : Bool := '0' ≤ c && c ≤ '9'

/-- Python `str.strip()`: drop leading and trailing Python whitespace. -/
def pyStrip (s : List Char) : List Char :=
  ((s.dropWhile isPySpace).reverse.dropWhile isPySpace).reverse

/-- Python `str.lower()`, restricted to the Latin-1 range that can occur here:
ASCII letters and the Latin-1 uppercase block `À`..`Þ` (excluding `×`).
Other characters are unchanged. -/
def pyLowerChar (c : Char) : Char :=
  if 'A' ≤ c && c ≤ 'Z' then Char.ofNat (c.toNat + 32)
  else if 'À' ≤ c && c ≤ 'Þ' && c ≠ '×' then Char.ofNat (c.toNat + 32)
  else c

def pyLower (s : List Char) : List Char := s.map pyLowerChar

/-- The Python `needle in hay` test on strings: contiguous substring test. -/
def containsSub (hay needle : List Char) : Bool :=
  decide (needle <:+: hay)

/-! ## A regex engine for the fragment used by `feeling.py`

Every repetition in the three patterns of the script repeats a single-character
class, so a pattern is a tree of: a class with repetition bounds and a
greedy/lazy flag, sequencing, a numbered capture group, and the `$`
anchor. -/

inductive Re where
  /-- repetition `p{lo,hi}` (`hi = none` means unbounded) over a
  one-character class; `lz = true` is lazy (`?` suffix), otherwise greedy -/
  | cls (p : Char → Bool) (lo : Nat) (hi : Option Nat) (lz : Bool)
  | seq (a b : Re)
  /-- capture group number `i` (Python numbers groups left to right from 1) -/
  | group (i : Nat) (r : Re)
  /-- the `$` anchor: end of input, or just before a final newline -/
  | eol

/-- Candidate repetition counts for a class that can match at most
`top` leading characters: `lo, lo+1, ..., top` for lazy, reversed for
greedy (Python tries the longest candidate first when greedy). -/
def candCounts (lo top : Nat) (lz : Bool) : List Nat :=
  let asc := List.range' lo (top + 1 - lo)
  if lz then asc else asc.reverse

/-- Length of the maximal leading run of characters satisfying `p`. -/
def leadRun (p : Char → Bool) : List Char → Nat
  | [] => 0
  | c :: cs => if p c then leadRun p cs + 1 else 0

/-- Backtracking matcher in continuation-passing style.  `k` receives the
remaining input and the captures recorded so far; the first branch on
which `k` succeeds wins, which is exactly the Python leftmost backtracking
search for this fragment. -/
def Re.m (k : List Char → List (Nat × List Char) → Option (List (Nat × List Char))) :
    Re → List Char → List (Nat × List Char) → Option (List (Nat × List Char))
  | .cls p lo hi lz, s, caps =>
    let top := match hi with
      | some h => min (leadRun p s) h
      | none => leadRun p s
    (candCounts lo top lz).findSome? fun n => k (s.drop n) caps
  | .seq a b, s, caps => a.m (fun s' caps' => b.m k s' caps') s caps
  | .group i r, s, caps =>
    r.m (fun s' caps' => k s' ((i, s.take (s.length - s'.length)) :: caps')) s caps
  | .eol, s, caps => if s = [] || s = ['\n'] then k s caps else none

/-- Python `re.Pattern.match`: anchored at the start only; returns the capture
list of the first (leftmost backtracking) match, or `none`. -/
def reMatch (r : Re) (s : List Char) : Option (List (Nat × List Char)) :=
  r.m (fun _ caps => some caps) s []

/-! ## The three header patterns (source lines 70–74) -/

/-- shorthand: a single mandatory character `c` -/
def Re.ch (c : Char) : Re := .cls (· = c) 1 (some 1) false

/-- shorthand: `c?` (greedy optional single character) -/
def Re.copt (c : Char) : Re := .cls (· = c) 0 (some 1) false

def Re.seqs : List Re → Re
  | [] => .cls (fun _ => true) 0 (some 0) false
  | [r] => r
  | r :: rs => .seq r (Re.seqs rs)

/-- Subpattern `\d{1,2}/\d{1,2}/\d{2,4}` shared by all three patterns. -/
def dateRe : Re :=
  Re.seqs [.cls isDigitCh 1 (some 2) false, Re.ch '/',
           .cls isDigitCh 1 (some 2) false, Re.ch '/',
           .cls isDigitCh 2 (some 4) false]

/-- Subpattern `\d{1,2}:\d{2}` shared by all three patterns. -/
def timeRe : Re :=
  Re.seqs [.cls isDigitCh 1 (some 2) false, Re.ch ':',
           .cls isDigitCh 2 (some 2) false]

/-- Class `[,\s]`. -/
def commaOrSpace (c : Char) : Bool := c = ',' || isPySpace c

/-- Class `[^:]`. -/
def nonColon (c : Char) : Bool := c ≠ ':'

/-- Class `.` (any character except newline). -/
def anyNoNl (c : Char) : Bool := c ≠ '\n'

/-- Pattern `^(\d{1,2}/\d{1,2}/\d{2,4})[,\s]+(\d{1,2}:\d{2})\s*[-–]\s*([^:]+?):\s*(.*)$` (line 71). -/
def pattern1 : Re :=
  Re.seqs [.group 1 dateRe,
           .cls commaOrSpace 1 none false,
           .group 2 timeRe,
           .cls isPySpace 0 none false,
           .cls (fun c => c = '-' || c = '–') 1 (some 1) false,
           .cls isPySpace 0 none false,
           .group 3 (.cls nonColon 1 none true),
           Re.ch ':',
           .cls isPySpace 0 none false,
           .group 4 (.cls anyNoNl 0 none false),
           .eol]

/-- Pattern `^\[?(\d{1,2}/\d{1,2}/\d{2,4})[,\s]+(\d{1,2}:\d{2})\]?\s*([^:]+?):\s*(.*)$` (line 72). -/
def pattern2 : Re :=
  Re.seqs [Re.copt '[',
           .group 1 dateRe,
           .cls commaOrSpace 1 none false,
           .group 2 timeRe,
           Re.copt ']',
           .cls isPySpace 0 none false,
           .group 3 (.cls nonColon 1 none true),
           Re.ch ':',
           .cls isPySpace 0 none false,
           .group 4 (.cls anyNoNl 0 none false),
           .eol]

/-- Pattern `^(\d{1,2}/\d{1,2}/\d{2,4})\s+(\d{1,2}:\d{2})\s*-\s*([^:]+):\s*(.*)$` (line 73). -/
def pattern3 : Re :=
  Re.seqs [.group 1 dateRe,
           .cls isPySpace 1 none false,
           .group 2 timeRe,
           .cls isPySpace 0 none false,
           Re.ch '-',
           .cls isPySpace 0 none false,
           .group 3 (.cls nonColon 1 none false),
           Re.ch ':',
           .cls isPySpace 0 none false,
           .group 4 (.cls anyNoNl 0 none false),
           .eol]

def patterns : List Re := [pattern1, pattern2, pattern3]

/-- Group extraction `m.groups()` for these patterns: the four captured groups. -/
def extract4 (caps : List (Nat × List Char)) :
    List Char × List Char × List Char × List Char :=
  ((caps.lookup 1).getD [], (caps.lookup 2).getD [],
   (caps.lookup 3).getD [], (caps.lookup 4).getD [])

def tryPattern (r : Re) (s : List Char) :
    Option (List Char × List Char × List Char × List Char) :=
  (reMatch r s).map extract4

/-- The inner `for pattern in patterns` loop (lines 83–94): the first
pattern that matches determines the captured groups. -/
def runPatterns (s : List Char) :
    Option (List Char × List Char × List Char × List Char) :=
  patterns.findSome? fun r => tryPattern r s

/-! ## The parsing loop (source lines 76–98) -/

/-- One parsed message: the dict appended to `rows` (lines 87–92). -/
structure Row where
  date : List Char
  time : List Char
  author : List Char
  message : List Char
  deriving DecidableEq, Repr

/-- Append `' ' ++ line` to the message of the last row (`rows[-1]['message']
+= ' ' + line`, line 98).  On an empty list this is never invoked by the
loop (guarded by `rows` being non-empty); it returns the empty list. -/
def appendToLast (rows : List Row) (line : List Char) : List Row :=
  match rows with
  | [] => []
  | [r] => [{ r with message := r.message ++ ' ' :: line }]
  | r :: rs => r :: appendToLast rs line

/-- One iteration of `for line in text` (lines 77–98): strip, skip if empty,
try the patterns in order and open a new record on a match, otherwise merge
into the last record when one exists. -/
def parseStep (rows : List Row) (rawLine : List Char) : List Row :=
  let line := pyStrip rawLine
  if line = [] then rows
  else
    match runPatterns line with
    | some (d, t, a, m) =>
        rows ++ [{ date := pyStrip d, time := pyStrip t,
                   author := pyStrip a, message := pyStrip m }]
    | none => if rows = [] then rows else appendToLast rows line

/-- The whole parsing loop: `rows` after processing every line in order. -/
def parseLines (lines : List (List Char)) : List Row :=
  lines.foldl parseStep []

/-! ## System-message and length filtering (source lines 108–123) -/

/-- The fixed keyword list of lines 108–117.  The keywords contain no
regex metacharacters, so pandas `str.contains` (a regex search) coincides
with substring search for them. -/
def system_keywords : List (List Char) :=
  ["mensagens e chamadas".data,
   "criptografadas de ponta".data,
   "adicionou".data,
   "saiu".data,
   "removeu".data,
   "alterou o assunto".data,
   "alterou a descrição".data,
   "alterou o ícone".data]

/-- One step of the keyword loop (lines 119–120): keep the rows whose
lower-cased message does not contain `kw`. -/
def dropKeyword (rows : List Row) (kw : List Char) : List Row :=
  rows.filter fun r => ! containsSub (pyLower r.message) kw

/-- The full filtering pass: the keyword loop (lines 119–120) followed by
the length filter `df['message'].str.len() > 2` (line 123). -/
def filterRows (rows : List Row) : List Row :=
  (system_keywords.foldl dropKeyword rows).filter fun r => 2 < r.message.length

/-- Combined keep-condition equivalent to the sequence of filters: no
system keyword occurs in the lower-cased message, and the message is
longer than 2 characters. -/
def keepRow (r : Row) : Bool :=
  (system_keywords.all fun kw => ! containsSub (pyLower r.message) kw) &&
  2 < r.message.length

/-! ## Per-message sentiment classification (source lines 140–162)

The pretrained analyzer is an external collaborator; the loop body only
relies on `analyzer.predict` returning an object with an `output` label
and a `probas` mapping, or raising.  It is modelled as a function into
`Option Pred` (`none` = the call raised). -/

/-- The result object of `analyzer.predict`: `pred.output` and
`pred.probas` (a label-to-probability mapping, read with
`pred.probas.get(label, 0)`). -/
structure Pred where
  output : List Char
  probas : List (List Char × ℚ)

/-- A labelled message: the four sentiment columns appended to the frame
(lines 159–162), for one message. -/
structure SentOut where
  sentimento : List Char
  prob_POS : ℚ
  prob_NEU : ℚ
  prob_NEG : ℚ
  deriving DecidableEq, Repr

/-- The neutral default of the `except` branch (lines 152–157). -/
def neutralOut : SentOut :=
  { sentimento := "NEU".data, prob_POS := 0, prob_NEU := 1, prob_NEG := 0 }

/-- Python `str(msg)[:500]` (line 147): truncate to 500 characters. -/
def truncate500 (msg : List Char) : List Char := msg.take 500

/-- The body of the per-message loop (lines 146–157): call the classifier
on the truncated message; on failure substitute the neutral default. -/
def classifyOne (clf : List Char → Option Pred) (msg : List Char) : SentOut :=
  match clf (truncate500 msg) with
  | some pred =>
      { sentimento := pred.output,
        prob_POS := (pred.probas.lookup "POS".data).getD 0,
        prob_NEU := (pred.probas.lookup "NEU".data).getD 0,
        prob_NEG := (pred.probas.lookup "NEG".data).getD 0 }
  | none => neutralOut

/-- The whole loop `for msg in df["message"]` (lines 145–157): one
`SentOut` per message, in order. -/
def classifyAll (clf : List Char → Option Pred) (msgs : List (List Char)) :
    List SentOut :=
  msgs.map (classifyOne clf)

/-! ## Encoding resolution (source lines 30–58)

Bytes are modelled as `Nat` values below 256 and decoded text as the list
of Unicode code points.  `chardet` is an external collaborator, modelled
as an optional detection result (`none` = `chardet.detect` raised, the
`except` branch of lines 40–41). -/

/-- Utf-8 continuation byte `0x80..0xBF`. -/
def utf8Cont (b : Nat) : Bool := decide (0x80 ≤ b ∧ b < 0xC0)

/-- Range restriction on the first continuation byte of a 3-byte sequence:
rejects overlong forms (`E0 A0..`) and surrogates (`ED 80..9F` only). -/
def utf8B1ok3 (b b1 : Nat) : Bool :=
  decide ((b = 0xE0 → 0xA0 ≤ b1) ∧ (b = 0xED → b1 < 0xA0))

/-- Range restriction on the first continuation byte of a 4-byte sequence:
rejects overlong forms and code points above `U+10FFFF`. -/
def utf8B1ok4 (b b1 : Nat) : Bool :=
  decide ((b = 0xF0 → 0x90 ≤ b1) ∧ (b = 0xF4 → b1 < 0x90))

/-- Strict UTF-8 decoding as performed by `bytes.decode("utf-8")`:
`none` models `UnicodeDecodeError`. -/
def decodeUtf8 : List Nat → Option (List Nat)
  | [] => some []
  | b :: rest =>
    if b < 0x80 then (decodeUtf8 rest).map (b :: ·)
    else if b < 0xC2 then none
    else if b ≤ 0xDF then
      match rest with
      | b1 :: rest2 =>
        if utf8Cont b1 then
          (decodeUtf8 rest2).map (((b - 0xC0) * 0x40 + (b1 - 0x80)) :: ·)
        else none
      | [] => none
    else if b ≤ 0xEF then
      match rest with
      | b1 :: b2 :: rest3 =>
        if utf8Cont b1 && utf8Cont b2 && utf8B1ok3 b b1 then
          (decodeUtf8 rest3).map
            (((b - 0xE0) * 0x1000 + (b1 - 0x80) * 0x40 + (b2 - 0x80)) :: ·)
        else none
      | _ => none
    else if b ≤ 0xF4 then
      match rest with
      | b1 :: b2 :: b3 :: rest4 =>
        if utf8Cont b1 && utf8Cont b2 && utf8Cont b3 && utf8B1ok4 b b1 then
          (decodeUtf8 rest4).map
            (((b - 0xF0) * 0x40000 + (b1 - 0x80) * 0x1000 +
              (b2 - 0x80) * 0x40 + (b3 - 0x80)) :: ·)
        else none
      | _ => none
    else none

/-- Latin-1 (ISO-8859-1) decoding: every byte is its own code point, so
this decoding is total. -/
def decodeLatin1 (bs : List Nat) : List Nat := bs

/-- The cp1252 mapping for the `0x80..0x9F` block; five bytes are
undefined and make the decoding fail. -/
def cp1252Byte (b : Nat) : Option Nat :=
  if b = 0x80 then some 0x20AC else if b = 0x82 then some 0x201A
  else if b = 0x83 then some 0x0192 else if b = 0x84 then some 0x201E
  else if b = 0x85 then some 0x2026 else if b = 0x86 then some 0x2020
  else if b = 0x87 then some 0x2021 else if b = 0x88 then some 0x02C6
  else if b = 0x89 then some 0x2030 else if b = 0x8A then some 0x0160
  else if b = 0x8B then some 0x2039 else if b = 0x8C then some 0x0152
  else if b = 0x8E then some 0x017D else if b = 0x91 then some 0x2018
  else if b = 0x92 then some 0x2019 else if b = 0x93 then some 0x201C
  else if b = 0x94 then some 0x201D else if b = 0x95 then some 0x2022
  else if b = 0x96 then some 0x2013 else if b = 0x97 then some 0x2014
  else if b = 0x98 then some 0x02DC else if b = 0x99 then some 0x2122
  else if b = 0x9A then some 0x0161 else if b = 0x9B then some 0x203A
  else if b = 0x9C then some 0x0153 else if b = 0x9E then some 0x017E
  else if b = 0x9F then some 0x0178
  else if 0x80 ≤ b ∧ b ≤ 0x9F then none
  else some b

/-- Windows-1252 decoding (`bytes.decode("cp1252")`). -/
def decodeCp1252 (bs : List Nat) : Option (List Nat) := bs.mapM cp1252Byte

/-- The encodings the script can name: the four literal entries of
`encodings_to_try` plus whatever codec the detector named, the latter
abstracted by its decoding function. -/
inductive Enc where
  | utf8
  | latin1
  | cp1252
  | iso88591
  | other (dec : List Nat → Option (List Nat))

/-- Decode `bs` under one named encoding (`raw_data.decode(enc)`);
`none` models `UnicodeDecodeError`. -/
def decodeWith : Enc → List Nat → Option (List Nat)
  | .utf8, bs => decodeUtf8 bs
  | .latin1, bs => some (decodeLatin1 bs)
  | .cp1252, bs => decodeCp1252 bs
  | .iso88591, bs => some (decodeLatin1 bs)
  | .other dec, bs => dec bs

/-- The detector answer (`chardet.detect`): an optional codec name and a
confidence (a real in `[0,1]`, modelled as a rational). -/
structure DetectResult where
  encoding : Option Enc
  confidence : ℚ

/-- Lines 31–41: the detected encoding, with `latin-1` forced when the
detector raised (`none`), returned no codec, or reported confidence below
`0.7`. -/
def chooseEnc (det : Option DetectResult) : Enc :=
  match det with
  | none => .latin1
  | some d =>
    match d.encoding with
    | none => .latin1
    | some e => if d.confidence < 7/10 then .latin1 else e

/-- The candidate list `encodings_to_try` (line 45). -/
def encodingsToTry (e : Enc) : List Enc :=
  [e, .utf8, .latin1, .cp1252, .iso88591]

/-- The fallback loop (lines 47–53): first successful decoding of the
candidate list. -/
def decodeChain (e : Enc) (bs : List Nat) : Option (List Nat) :=
  (encodingsToTry e).findSome? fun enc => decodeWith enc bs

/-- Last resort (lines 56–57): `decode("latin-1", errors="ignore")`.
Latin-1 has no undecodable byte, so no byte is discarded. -/
def decodeLatin1Ignore (bs : List Nat) : List Nat := decodeLatin1 bs

/-- The whole decoding step (lines 30–58): detector choice, candidate
chain, lossy last resort. -/
def resolveText (det : Option DetectResult) (bs : List Nat) : List Nat :=
  match decodeChain (chooseEnc det) bs with
  | some t => t
  | none => decodeLatin1Ignore bs

/-! ## Aggregate projections (source lines 199–233)

The labeled frame is the filtered rows with the sentiment columns added
by index (lines 159–162).  The projections only read the `date`, `author`
and `sentimento` columns. -/

/-- One row of the labeled frame, restricted to the columns the
projections read. -/
structure LRow where
  date : List Char
  author : List Char
  sentimento : List Char
  deriving DecidableEq, Repr

/-- Lines 159–162: the sentiment columns are attached to the frame rows
positionally (`df["sentimento"] = sentiments`, one entry per row in
order). -/
def labelFrame (clf : List Char → Option Pred) (rows : List Row) : List LRow :=
  (rows.zip (classifyAll clf (rows.map (·.message)))).map fun p =>
    { date := p.1.date, author := p.1.author, sentimento := p.2.sentimento }

/-- The `value_counts(normalize=True)` of a label column: each distinct
value with its count divided by the column length.  (pandas orders the
result by descending frequency; the order is irrelevant to the verified
properties, and `dedup` order is used here.) -/
def valueCountsNorm (l : List (List Char)) : List (List Char × ℚ) :=
  l.dedup.map fun s => (s, (l.count s : ℚ) / l.length)

/-- Lines 200–204: the daily-trend projection.  `toDate` stands for
`pandas.to_datetime(dayfirst=True, errors="coerce")` applied to one date
string, an external collaborator (`none` = `NaT`).  The frame is
restricted to the rows whose date parses (`dropna`, line 201), grouped by
the parsed date, and the sentiment column of each group is normalized. -/
def dailyTrend {D : Type} [DecidableEq D] (toDate : List Char → Option D)
    (rows : List LRow) : List (D × List (List Char × ℚ)) :=
  let rs := rows.filter fun r => (toDate r.date).isSome
  let dates := (rs.filterMap fun r => toDate r.date).dedup
  dates.map fun d =>
    (d, valueCountsNorm ((rs.filter fun r => toDate r.date = some d).map
          (·.sentimento)))

/-- One row of `author_summary` (lines 230–233): an author, the
per-label proportions of their messages, and their total message count. -/
structure ARow where
  author : List Char
  dist : List (List Char × ℚ)
  total : Nat
  deriving DecidableEq, Repr

def insertByTotal (x : ARow) : List ARow → List ARow
  | [] => [x]
  | y :: ys => if y.total ≤ x.total then x :: y :: ys else y :: insertByTotal x ys

/-- Insertion sort by total message count, descending
(`sort_values('Total_Msgs', ascending=False)`, line 233; pandas uses an
unstable quicksort, so only the descending order is meaningful). -/
def sortByTotalDesc : List ARow → List ARow
  | [] => []
  | x :: xs => insertByTotal x (sortByTotalDesc xs)

/-- Lines 230–233: per-author label proportions
(`groupby("author")["sentimento"].value_counts(normalize=True)`), total
message counts (`df['author'].value_counts()`), sorted by total
descending. -/
def authorSummary (rows : List LRow) : List ARow :=
  let authors := (rows.map (·.author)).dedup
  sortByTotalDesc (authors.map fun a =>
    { author := a,
      dist := valueCountsNorm ((rows.filter fun r => r.author = a).map
                (·.sentimento)),
      total := (rows.map (·.author)).count a })

/-- Digit-string to number, for the concrete day-first parser below. -/
def natOfDigits (s : List Char) : Option Nat :=
  if s ≠ [] ∧ s.all isDigitCh then
    some (s.foldl (fun n c => 10 * n + (c.toNat - 48)) 0)
  else none

/-- A concrete day-first date parser `d/m/y`, used to instantiate the
daily-trend statements (the script delegates date parsing to pandas, an
external collaborator; the daily-trend theorem is stated for an arbitrary
parse function). -/
def parseDayFirst (s : List Char) : Option (Nat × Nat × Nat) :=
  match s.splitOn '/' with
  | [d, m, y] =>
    match natOfDigits d, natOfDigits m, natOfDigits y with
    | some dv, some mv, some yv =>
        if 1 ≤ dv ∧ dv ≤ 31 ∧ 1 ≤ mv ∧ mv ≤ 12 then some (dv, mv, yv) else none
    | _, _, _ => none
  | _ => none

/-! ## Helper lemmas -/

lemma runPatterns_nil : runPatterns [] = none := by decide

lemma appendToLast_concat (rs : List Row) (r : Row) (line : List Char) :
    appendToLast (rs ++ [r]) line =
      rs ++ [{ r with message := r.message ++ ' ' :: line }] := by
  induction rs with
  | nil => rfl
  | cons x xs ih =>
    cases xs with
    | nil => rfl
    | cons y ys => simpa [appendToLast] using ih

lemma parseStep_nil_of_no_match (l : List Char)
    (h : runPatterns (pyStrip l) = none) : parseStep [] l = [] := by
  simp [parseStep, h]

/-! ## The claims -/

/-- C1: every input line whose stripped form matches one of the header
patterns opens exactly one new record whose date, time, author and message
are the trimmed captured groups, and the patterns are tried in the fixed
priority order `pattern1, pattern2, pattern3` with the first match
determining the groups. -/
theorem parse_header_creates_record :
    (∀ rows rawLine d t a m,
      runPatterns (pyStrip rawLine) = some (d, t, a, m) →
      parseStep rows rawLine =
        rows ++ [{ date := pyStrip d, time := pyStrip t,
                   author := pyStrip a, message := pyStrip m }]) ∧
    (∀ s g, tryPattern pattern1 s = some g → runPatterns s = some g) ∧
    (∀ s g, tryPattern pattern1 s = none → tryPattern pattern2 s = some g →
      runPatterns s = some g) ∧
    (∀ s g, tryPattern pattern1 s = none → tryPattern pattern2 s = none →
      tryPattern pattern3 s = some g → runPatterns s = some g) := by
  refine ⟨?_, ?_, ?_, ?_⟩
  · intro rows rawLine d t a m h
    have hne : pyStrip rawLine ≠ [] := by
      intro he
      rw [he, runPatterns_nil] at h
      exact Option.noConfusion h
    simp [parseStep, hne, h]
  · intro s g h
    simp [runPatterns, patterns, List.findSome?, h]
  · intro s g h1 h2
    simp [runPatterns, patterns, List.findSome?, h1, h2]
  · intro s g h1 h2 h3
    simp [runPatterns, patterns, List.findSome?, h1, h2, h3]

/-- Witness for C1: the Alice header line opens exactly one record with
the trimmed groups of `pattern1`, which wins the priority order. -/
theorem parse_header_creates_record_witness :
    parseStep [] "12/05/2023, 09:15 - Alice: Bom dia!".data =
      [{ date := "12/05/2023".data, time := "09:15".data,
         author := "Alice".data, message := "Bom dia!".data }] ∧
    runPatterns "12/05/2023, 09:15 - Alice: Bom dia!".data =
      some ("12/05/2023".data, "09:15".data, "Alice".data, "Bom dia!".data) := by
  constructor
  · rw [parse_header_creates_record.1 [] _ "12/05/2023".data "09:15".data
      "Alice".data "Bom dia!".data (by decide)]
    decide
  · exact parse_header_creates_record.2.1 _ _ (by decide)

/-- C2: a stripped-non-empty line matching no pattern is appended,
space-joined, to the message field of the most recently opened record,
leaving all earlier records unchanged and in order; before any record
exists it is dropped and parsing does not fail. -/
theorem continuation_line_merged (rawLine : List Char)
    (hne : pyStrip rawLine ≠ [])
    (hnm : runPatterns (pyStrip rawLine) = none) :
    parseStep [] rawLine = [] ∧
    ∀ rs r, parseStep (rs ++ [r]) rawLine =
      rs ++ [{ r with message := r.message ++ ' ' :: pyStrip rawLine }] := by
  refine ⟨by simp [parseStep, hne, hnm], fun rs r => ?_⟩
  simp [parseStep, hne, hnm, appendToLast_concat]

/-- Witness for C2: the continuation line of the running example merged
into the Bob record, and dropped when no record exists. -/
theorem continuation_line_merged_witness :
    parseStep [] "Sim, obrigado".data = [] ∧
    parseStep [{ date := "12/05/2023".data, time := "09:16".data,
                 author := "Bob".data, message := "Tudo certo?".data }]
        "Sim, obrigado".data =
      [{ date := "12/05/2023".data, time := "09:16".data,
         author := "Bob".data, message := "Tudo certo? Sim, obrigado".data }] := by
  have h := continuation_line_merged "Sim, obrigado".data (by decide) (by decide)
  refine ⟨h.1, ?_⟩
  have h2 := h.2 [] { date := "12/05/2023".data, time := "09:16".data,
                      author := "Bob".data, message := "Tudo certo?".data }
  simp only [List.nil_append] at h2
  rw [h2]
  decide

/-- C3: parsing is total and degrades to the empty sequence: the empty
input and any input none of whose lines matches a header pattern produce
no records. -/
theorem parse_empty_on_no_match :
    parseLines [] = [] ∧
    parseLines ["not a valid line".data] = [] ∧
    ∀ lines, (∀ l ∈ lines, runPatterns (pyStrip l) = none) →
      parseLines lines = [] := by
  refine ⟨rfl, by decide, ?_⟩
  intro lines h
  induction lines with
  | nil => rfl
  | cons l ls ih =>
    have h0 : parseStep [] l = [] :=
      parseStep_nil_of_no_match l (h l (List.mem_cons_self l ls))
    have : parseLines (l :: ls) = parseLines ls := by
      simp [parseLines, List.foldl_cons, h0]
    rw [this]
    exact ih fun x hx => h x (List.mem_cons_of_mem l hx)

/-- Witness for C3: a two-line input with no matching line parses to the
empty sequence. -/
theorem parse_empty_on_no_match_witness :
    parseLines ["not a valid line".data, "Sim, obrigado".data] = [] :=
  parse_empty_on_no_match.2.2 _ (by decide)

/-- C4: the three-line example parses to exactly two records; the Alice
message is unchanged and the third line is merged into the Bob message. -/
theorem example_parses_to_two_records :
    parseLines ["12/05/2023, 09:15 - Alice: Bom dia!".data,
                "12/05/2023, 09:16 - Bob: Tudo certo?".data,
                "Sim, obrigado".data] =
      [{ date := "12/05/2023".data, time := "09:15".data,
         author := "Alice".data, message := "Bom dia!".data },
       { date := "12/05/2023".data, time := "09:16".data,
         author := "Bob".data, message := "Tudo certo? Sim, obrigado".data }] := by
  decide

/-- C5: a failing classifier call produces the neutral default (label
`NEU`, probabilities `POS = 0`, `NEU = 1`, `NEG = 0`) for that message
only; every message is still classified (one output per input, in order),
and the output row for any message depends only on the classifier
answer for that message, so one failure cannot change the labels of other
messages. -/
theorem classifier_failure_isolated :
    (∀ (clf : List Char → Option Pred) msgs,
      (classifyAll clf msgs).length = msgs.length) ∧
    (∀ (clf : List Char → Option Pred) msgs (i : Nat) msg,
      msgs[i]? = some msg → clf (truncate500 msg) = none →
      (classifyAll clf msgs)[i]? = some neutralOut) ∧
    (∀ (clf clf' : List Char → Option Pred) msgs (j : Nat) msg,
      msgs[j]? = some msg → clf (truncate500 msg) = clf' (truncate500 msg) →
      (classifyAll clf msgs)[j]? = (classifyAll clf' msgs)[j]?) := by
  refine ⟨fun clf msgs => by simp [classifyAll], ?_, ?_⟩
  · intro clf msgs i msg hi hc
    simp [classifyAll, List.getElem?_map, hi, classifyOne, hc]
  · intro clf clf' msgs j msg hj hc
    simp [classifyAll, List.getElem?_map, hj, classifyOne, hc]

/-- Witness for C5: a classifier that always raises still yields one
output per message, and the first output is the neutral default. -/
theorem classifier_failure_isolated_witness :
    (classifyAll (fun _ => none) ["oi".data, "tudo bem".data]).length = 2 ∧
    (classifyAll (fun _ => none) ["oi".data, "tudo bem".data])[0]? =
      some neutralOut := by
  constructor
  · exact classifier_failure_isolated.1 (fun _ => none) _
  · exact classifier_failure_isolated.2.1 (fun _ => none) _ 0 "oi".data
      (by decide) rfl

/-- C6: encoding resolution is total: the candidate chain always succeeds
(Latin-1 is among the candidates and decodes any byte sequence), the
detected encoding is replaced by `latin-1` exactly when the detector
raised, returned no codec, or reported confidence below 0.7, and a byte
string that is valid Latin-1 but invalid UTF-8 decodes successfully. -/
theorem encoding_resolution_total :
    (∀ det bs, (decodeChain (chooseEnc det) bs).isSome = true) ∧
    (∀ d : DetectResult, d.confidence < 7/10 ∨ d.encoding = none →
      chooseEnc (some d) = Enc.latin1) ∧
    chooseEnc none = Enc.latin1 ∧
    decodeUtf8 [0x4F, 0x6C, 0xE1] = none ∧
    resolveText (some ⟨some Enc.utf8, 9/10⟩) [0x4F, 0x6C, 0xE1] =
      [0x4F, 0x6C, 0xE1] := by
  refine ⟨?_, ?_, rfl, by decide, ?_⟩
  · intro det bs
    cases h1 : decodeWith (chooseEnc det) bs with
    | some t => simp [decodeChain, encodingsToTry, List.findSome?, h1]
    | none =>
      cases h2 : decodeUtf8 bs with
      | some t =>
        simp only [decodeChain, encodingsToTry, List.findSome?, h1]
        simp [decodeWith, h2]
      | none =>
        simp only [decodeChain, encodingsToTry, List.findSome?, h1]
        simp [decodeWith, h2]
  · rintro ⟨e, conf⟩ (h | h)
    · cases e with
      | none => rfl
      | some e => simp_all [chooseEnc]
    · simp only at h
      subst h
      rfl
  · have hc : chooseEnc (some ⟨some Enc.utf8, 9/10⟩) = Enc.utf8 := by
      norm_num [chooseEnc]
    simp only [resolveText, hc]
    decide

/-- Witness for C6: the chain succeeds on the detector failing entirely,
and `latin-1` is forced at confidence 0.5. -/
theorem encoding_resolution_total_witness :
    (decodeChain (chooseEnc none) [0xE1]).isSome = true ∧
    chooseEnc (some ⟨some Enc.utf8, 1/2⟩) = Enc.latin1 := by
  constructor
  · exact encoding_resolution_total.1 none [0xE1]
  · exact encoding_resolution_total.2.1 ⟨some Enc.utf8, 1/2⟩ (Or.inl (by norm_num))

lemma foldl_dropKeyword (kws : List (List Char)) (rows : List Row) :
    kws.foldl dropKeyword rows =
      rows.filter fun r => kws.all fun kw => ! containsSub (pyLower r.message) kw := by
  induction kws generalizing rows with
  | nil => simp
  | cons kw kws ih =>
    rw [List.foldl_cons, ih, dropKeyword, List.filter_filter]
    congr 1
    funext r
    cases h : containsSub (pyLower r.message) kw <;> simp [h]

lemma filterRows_eq_filter (rows : List Row) :
    filterRows rows = rows.filter keepRow := by
  rw [filterRows, foldl_dropKeyword, List.filter_filter]
  congr 1
  funext r
  cases h : decide (2 < r.message.length) <;> simp [keepRow, h]

/-- C7: the filtering pass removes exactly the parsed records whose
lower-cased message contains one of the fixed system keywords or whose
message has length at most 2, and keeps every other record unchanged and
in order. -/
theorem filter_removes_system_and_short (rows : List Row) :
    filterRows rows = rows.filter keepRow :=
  filterRows_eq_filter rows

/-! ## Helper lemmas for the aggregate projections -/

lemma filter_idem {α : Type} (p : α → Bool) (l : List α) :
    (l.filter p).filter p = l.filter p := by
  rw [List.filter_filter]
  congr 1
  funext x
  cases p x <;> rfl

/-- Bridge between `List.count` at the `BEq` instance the definitions
elaborated with and the `DecidableEq`-derived instance the Mathlib dedup
lemmas are stated with. -/
lemma count_decEq {α : Type} [DecidableEq α] [BEq α] [LawfulBEq α]
    (x : α) (l : List α) :
    @List.count α instBEqOfDecidableEq x l = l.count x := by
  have h : (fun y => @BEq.beq α instBEqOfDecidableEq y x) = (fun y => y == x) := by
    funext y
    have h2 := beq_eq_decide (a := y) (b := x)
    rw [h2]
    exact decide_eq_decide.mpr Iff.rfl
  show List.countP (fun y => @BEq.beq α instBEqOfDecidableEq y x) l =
    List.countP (fun y => y == x) l
  rw [h]

lemma sum_count_dedup (l : List (List Char)) :
    (l.dedup.map fun x => l.count x).sum = l.length := by
  have h := List.sum_map_count_dedup_eq_length l
  calc (l.dedup.map fun x => l.count x).sum
      = (l.dedup.map fun x => @List.count _ instBEqOfDecidableEq x l).sum := by
        simp only [count_decEq]
    _ = l.length := h

lemma valueCountsNorm_sum (l : List (List Char)) (hne : l ≠ []) :
    ((valueCountsNorm l).map Prod.snd).sum = 1 := by
  have hlen0 : l.length ≠ 0 := fun h => hne (List.length_eq_zero.mp h)
  have hlen : ((l.length : ℚ)) ≠ 0 := Nat.cast_ne_zero.mpr hlen0
  rw [valueCountsNorm, List.map_map]
  have e1 : (Prod.snd ∘ fun s => (s, (l.count s : ℚ) / l.length)) =
      fun s => (l.count s : ℚ) * ((l.length : ℚ))⁻¹ := by
    funext s
    simp [div_eq_mul_inv]
  rw [e1, List.sum_map_mul_right]
  have e2 : (l.dedup.map fun s => ((l.count s : ℚ))) =
      (l.dedup.map fun s => l.count s).map (fun n : ℕ => (n : ℚ)) := by
    rw [List.map_map]
    rfl
  rw [e2, ← Nat.cast_list_sum, sum_count_dedup]
  exact mul_inv_cancel₀ hlen

lemma insertByTotal_perm (x : ARow) (l : List ARow) :
    List.Perm (insertByTotal x l) (x :: l) := by
  induction l with
  | nil => exact List.Perm.refl _
  | cons y ys ih =>
    by_cases h : y.total ≤ x.total
    · rw [insertByTotal, if_pos h]
    · rw [insertByTotal, if_neg h]
      exact (ih.cons y).trans (List.Perm.swap x y ys)

lemma sortByTotalDesc_perm (l : List ARow) :
    List.Perm (sortByTotalDesc l) l := by
  induction l with
  | nil => exact List.Perm.refl _
  | cons x xs ih => exact (insertByTotal_perm x _).trans (ih.cons x)

lemma pairwise_insertByTotal (x : ARow) (l : List ARow)
    (h : l.Pairwise fun a b => b.total ≤ a.total) :
    (insertByTotal x l).Pairwise fun a b => b.total ≤ a.total := by
  induction l with
  | nil => simp [insertByTotal]
  | cons y ys ih =>
    rcases List.pairwise_cons.mp h with ⟨hy, hys⟩
    by_cases hc : y.total ≤ x.total
    · rw [insertByTotal, if_pos hc]
      refine List.pairwise_cons.mpr ⟨?_, h⟩
      intro z hz
      rcases List.mem_cons.mp hz with rfl | hz'
      · exact hc
      · exact (hy z hz').trans hc
    · rw [insertByTotal, if_neg hc]
      refine List.pairwise_cons.mpr ⟨?_, ih hys⟩
      intro z hz
      rcases List.mem_cons.mp ((insertByTotal_perm x ys).mem_iff.mp hz) with rfl | hz'
      · exact (Nat.not_le.mp hc).le
      · exact hy z hz'

lemma pairwise_sortByTotalDesc (l : List ARow) :
    (sortByTotalDesc l).Pairwise fun a b => b.total ≤ a.total := by
  induction l with
  | nil => exact List.Pairwise.nil
  | cons x xs ih => exact pairwise_insertByTotal x _ ih

/-- C8: in the daily-trend projection, the proportions for any present
date sum to 1; records whose date does not parse are excluded from this
projection only — the projection of the date-parsable subframe is the
same — while the rest of the pipeline keeps them (the author-ranking
totals still sum to the full row count). -/
theorem daily_trend_proportions (D : Type) [DecidableEq D]
    (toDate : List Char → Option D) (rows : List LRow) :
    (∀ d dist, (d, dist) ∈ dailyTrend toDate rows →
      (dist.map Prod.snd).sum = 1) ∧
    dailyTrend toDate rows =
      dailyTrend toDate (rows.filter fun r => (toDate r.date).isSome) ∧
    ((authorSummary rows).map ARow.total).sum = rows.length := by
  refine ⟨?_, ?_, ?_⟩
  · intro d dist hmem
    simp only [dailyTrend] at hmem
    rcases List.mem_map.mp hmem with ⟨d', hd', heq⟩
    obtain ⟨rfl, rfl⟩ : d' = d ∧
        (valueCountsNorm (((rows.filter fun r => (toDate r.date).isSome).filter
          fun r => toDate r.date = some d').map (·.sentimento))) = dist := by
      exact ⟨congrArg Prod.fst heq, congrArg Prod.snd heq⟩
    apply valueCountsNorm_sum
    rcases List.mem_filterMap.mp (List.mem_dedup.mp hd') with ⟨r, hr, hrd⟩
    have hrf : r ∈ (rows.filter fun r => (toDate r.date).isSome).filter
        fun r => toDate r.date = some d' := by
      exact List.mem_filter.mpr ⟨hr, by simp [hrd]⟩
    exact List.ne_nil_of_mem (List.mem_map_of_mem (·.sentimento) hrf)
  · simp only [dailyTrend, filter_idem]
  · simp only [authorSummary]
    rw [((sortByTotalDesc_perm _).map ARow.total).sum_eq, List.map_map]
    rw [show (ARow.total ∘ fun a =>
        ({ author := a,
           dist := valueCountsNorm ((rows.filter fun r => r.author = a).map
             (·.sentimento)),
           total := (rows.map (·.author)).count a } : ARow)) =
        fun a => (rows.map (·.author)).count a from rfl]
    rw [sum_count_dedup, List.length_map]

/-- Evaluation of the daily trend on a single-row frame with a parsable
date; used to instantiate the daily-trend statement. -/
lemma dailyTrend_singleton {D : Type} [DecidableEq D]
    (toDate : List Char → Option D) (r : LRow) (d : D)
    (h : toDate r.date = some d) :
    dailyTrend toDate [r] = [(d, [(r.sentimento, 1)])] := by
  simp [dailyTrend, h, valueCountsNorm, List.count_cons]

/-- Witness for C8 on a two-row frame, one row with an unparseable date:
the proportions of the present date sum to 1 and the projection ignores
the unparseable row. -/
theorem daily_trend_proportions_witness :
    ((([(("POS".data : List Char), (1 : ℚ))]).map Prod.snd).sum = 1) ∧
    dailyTrend parseDayFirst
        [{ date := "12/05/2023".data, author := "Alice".data,
           sentimento := "POS".data }] =
      [((12, 5, 2023), [("POS".data, 1)])] := by
  constructor
  · exact (daily_trend_proportions (Nat × Nat × Nat) parseDayFirst
      [{ date := "12/05/2023".data, author := "Alice".data,
         sentimento := "POS".data }]).1 (12, 5, 2023) [("POS".data, 1)]
      (by rw [dailyTrend_singleton parseDayFirst
            { date := "12/05/2023".data, author := "Alice".data,
              sentimento := "POS".data } (12, 5, 2023) (by decide)]
          exact List.mem_singleton.mpr rfl)
  · exact dailyTrend_singleton parseDayFirst
      { date := "12/05/2023".data, author := "Alice".data,
        sentimento := "POS".data } (12, 5, 2023) (by decide)

/-- C9: every row of the author ranking carries per-label proportions
summing to 1 for an author with at least one message, and the ranking is
sorted by total message count in descending order. -/
theorem author_summary_sorted (rows : List LRow) :
    (∀ ar, ar ∈ authorSummary rows →
      (ar.dist.map Prod.snd).sum = 1 ∧ 0 < ar.total) ∧
    (authorSummary rows).Pairwise fun a b => b.total ≤ a.total := by
  constructor
  · intro ar har
    simp only [authorSummary] at har
    rw [(sortByTotalDesc_perm _).mem_iff] at har
    rcases List.mem_map.mp har with ⟨a, ha, rfl⟩
    constructor
    · apply valueCountsNorm_sum
      rcases List.mem_map.mp (List.mem_dedup.mp ha) with ⟨r, hr, hra⟩
      have hrf : r ∈ rows.filter fun r => r.author = a :=
        List.mem_filter.mpr ⟨hr, by simp [hra]⟩
      exact List.ne_nil_of_mem (List.mem_map_of_mem (·.sentimento) hrf)
    · exact List.count_pos_iff.mpr (List.mem_dedup.mp ha)
  · simp only [authorSummary]
    exact pairwise_sortByTotalDesc _

/-- Evaluation of the author ranking on a single-row frame; used to
instantiate the author-ranking statement. -/
lemma authorSummary_singleton (r : LRow) :
    authorSummary [r] =
      [{ author := r.author, dist := [(r.sentimento, 1)], total := 1 }] := by
  simp [authorSummary, valueCountsNorm, sortByTotalDesc, insertByTotal,
    List.count_cons]

/-- Witness for C9 on a single-row frame. -/
theorem author_summary_sorted_witness :
    ((([((("POS".data : List Char), (1 : ℚ)))]).map Prod.snd).sum = 1 ∧
      0 < 1) ∧
    ([({ author := "Alice".data, dist := [("POS".data, 1)],
         total := 1 } : ARow)]).Pairwise (fun a b => b.total ≤ a.total) := by
  have h := author_summary_sorted
    [{ date := "12/05/2023".data, author := "Alice".data,
       sentimento := "POS".data }]
  constructor
  · exact h.1 { author := "Alice".data, dist := [("POS".data, 1)], total := 1 }
      (by rw [authorSummary_singleton]
          exact List.mem_singleton.mpr rfl)
  · have := h.2
    rwa [authorSummary_singleton] at this

/-! ## Keyword filtering sees the merged message -/

lemma pyLower_append (a b : List Char) :
    pyLower (a ++ b) = pyLower a ++ pyLower b :=
  List.map_append pyLowerChar a b

lemma containsSub_append_right (a b kw : List Char)
    (h : containsSub b kw = true) : containsSub (a ++ b) kw = true := by
  rw [containsSub, decide_eq_true_eq] at h ⊢
  obtain ⟨s, t, hb⟩ := h
  exact ⟨a ++ s, t, by rw [← hb]; simp⟩

lemma keepRow_false_of_keyword (r : Row) (kw : List Char)
    (hkw : kw ∈ system_keywords)
    (h : containsSub (pyLower r.message) kw = true) :
    keepRow r = false := by
  have hall : (system_keywords.all fun kw =>
      ! containsSub (pyLower r.message) kw) = false := by
    rw [List.all_eq_false]
    exact ⟨kw, hkw, by simp [h]⟩
  rw [keepRow, hall, Bool.false_and]

/-- C10: the system-keyword filter is applied to the fully merged message:
when a keyword occurs in the (lower-cased, stripped) text of a
continuation line, the whole merged record — its original header-line
message text included — is removed from the dataset by the filtering
pass. -/
theorem keyword_in_continuation_removes_record
    (lines : List (List Char)) (c kw : List Char) (rs : List Row) (r : Row)
    (hkw : kw ∈ system_keywords)
    (hne : pyStrip c ≠ [])
    (hnm : runPatterns (pyStrip c) = none)
    (hsub : containsSub (pyLower (pyStrip c)) kw = true)
    (hrows : parseLines lines = rs ++ [r]) :
    parseLines (lines ++ [c]) =
      rs ++ [{ r with message := r.message ++ ' ' :: pyStrip c }] ∧
    filterRows (parseLines (lines ++ [c])) = filterRows rs := by
  have hstep : parseLines (lines ++ [c]) = parseStep (parseLines lines) c := by
    rw [parseLines, parseLines, List.foldl_append, List.foldl_cons,
      List.foldl_nil]
  have h1 : parseLines (lines ++ [c]) =
      rs ++ [{ r with message := r.message ++ ' ' :: pyStrip c }] := by
    rw [hstep, hrows]
    simp [parseStep, hne, hnm, appendToLast_concat]
  refine ⟨h1, ?_⟩
  rw [h1, filterRows_eq_filter, filterRows_eq_filter, List.filter_append]
  have hkeep : keepRow { r with message := r.message ++ ' ' :: pyStrip c } =
      false := by
    apply keepRow_false_of_keyword _ kw hkw
    show containsSub (pyLower (r.message ++ ' ' :: pyStrip c)) kw = true
    have e : r.message ++ ' ' :: pyStrip c =
        (r.message ++ [' ']) ++ pyStrip c := by
      simp
    rw [e, pyLower_append]
    exact containsSub_append_right _ _ _ hsub
  simp [List.filter_cons, hkeep]

/-- Witness for C10: the keyword `saiu` occurs only in the continuation
line, yet the merged Alice record (header text `veja isso` included) is
removed by the filtering pass. -/
theorem keyword_in_continuation_removes_record_witness :
    parseLines ["12/05/2023, 09:15 - Alice: veja isso".data,
                "Fulano saiu do grupo".data] =
      [{ date := "12/05/2023".data, time := "09:15".data,
         author := "Alice".data,
         message := "veja isso Fulano saiu do grupo".data }] ∧
    filterRows (parseLines ["12/05/2023, 09:15 - Alice: veja isso".data,
                "Fulano saiu do grupo".data]) = filterRows [] := by
  have h := keyword_in_continuation_removes_record
    ["12/05/2023, 09:15 - Alice: veja isso".data]
    "Fulano saiu do grupo".data "saiu".data []
    { date := "12/05/2023".data, time := "09:15".data,
      author := "Alice".data, message := "veja isso".data }
    (by decide) (by decide) (by decide) (by decide) (by decide)
  have e : (["12/05/2023, 09:15 - Alice: veja isso".data] ++
      ["Fulano saiu do grupo".data]) =
      ["12/05/2023, 09:15 - Alice: veja isso".data,
       "Fulano saiu do grupo".data] := rfl
  rw [e] at h
  constructor
  · rw [h.1]
    decide
  · exact h.2

end Feeling
